import Mathlib

set_option maxHeartbeats 1000000

/-!
Shallow embedding of the peer-to-peer streaming file-transfer core in
`src/main.js`: the chunking sender pipeline (`sendFile`), the backpressure
wait (`waitForBufferDrain`), and the receiver state machine
(`handleDataChannelMessage`, `handleFileMetadata`, `handleChunkData`,
`handleTransferComplete`).

Byte buffers (JS `ArrayBuffer` / `Uint8Array` contents) are modelled as
`List Nat`; JS numbers holding byte counts are modelled as `Nat` (they are
exact integers below 2^53 in the source's range of use).  The injected
zstd codec is modelled as explicit `compress` / `decompress` function
parameters; DOM/logging/benchmark-timing side effects are not modelled,
except for the counters that are part of the receiver's transfer state.
-/

namespace FileTransfer

/-- Byte buffers as lists of byte values. -/
abbrev Bytes := List Nat

/-- `CHUNK_SIZE = 64 * 1024` (src/main.js line 4). -/
def CHUNK_SIZE : Nat := 64 * 1024

/-- `BUFFER_THRESHOLD = 1024 * 1024` (src/main.js line 5). -/
def BUFFER_THRESHOLD : Nat := 1024 * 1024

/-- The metadata control message built at src/main.js lines 319-327. -/
structure Metadata where
  name : String
  size : Nat
  mimeType : String
  compressed : Bool
  compressionLevel : Nat
  totalChunks : Nat
deriving DecidableEq

/-- The chunk-header control message built at src/main.js lines 358-363. -/
structure ChunkHeader where
  index : Nat
  originalSize : Nat
  compressedSize : Nat
deriving DecidableEq

/-- The three JSON control messages, discriminated by their `type` tag
(`metadata` / `chunk` / `complete`). -/
inductive ControlMessage where
  | metadata (m : Metadata)
  | chunk (h : ChunkHeader)
  | complete
deriving DecidableEq

/-- A frame on the data channel: either a JSON string (control message) or a
binary chunk payload, matching the string/binary dispatch at
src/main.js lines 392-410. -/
inductive Frame where
  | control (m : ControlMessage)
  | binary (data : Bytes)
deriving DecidableEq

/-- `Math.ceil(len / CHUNK_SIZE)` (src/main.js lines 326 and 335), as exact
ceiling division on `Nat`. -/
def totalChunksFor (len : Nat) : Nat := (len + CHUNK_SIZE - 1) / CHUNK_SIZE

/-- The i-th chunk slice: `arrayBuffer.slice(start, end)` with
`start = i * CHUNK_SIZE` and `end = min(start + CHUNK_SIZE, byteLength)`
(src/main.js lines 338-340). -/
def chunkAt (buf : Bytes) (i : Nat) : Bytes :=
  (buf.drop (i * CHUNK_SIZE)).take
    (min (i * CHUNK_SIZE + CHUNK_SIZE) buf.length - i * CHUNK_SIZE)

/-- The bytes put on the wire for chunk `i`: the compressed slice when
compression is on, else the raw slice (src/main.js lines 342-355). -/
def chunkToSend (buf : Bytes) (useCompression : Bool) (level : Nat)
    (compress : Bytes → Nat → Bytes) (i : Nat) : Bytes :=
  if useCompression then compress (chunkAt buf i) level else chunkAt buf i

/-- The chunk header for chunk `i` (src/main.js lines 358-363);
`compressedSize` is the byte length of the frame actually sent. -/
def chunkHeaderAt (buf : Bytes) (useCompression : Bool) (level : Nat)
    (compress : Bytes → Nat → Bytes) (i : Nat) : ChunkHeader :=
  { index := i
    originalSize := (chunkAt buf i).length
    compressedSize := (chunkToSend buf useCompression level compress i).length }

/-- The ordered sequence of frames `sendFile` puts on the data channel
(src/main.js lines 287-390): one metadata frame, then for each chunk index a
chunk-header frame followed by its binary payload, then the completion
frame. -/
def sendFile (name mimeType : String) (buf : Bytes) (useCompression : Bool)
    (level : Nat) (compress : Bytes → Nat → Bytes) : List Frame :=
  Frame.control (ControlMessage.metadata
      { name := name
        size := buf.length
        mimeType := mimeType
        compressed := useCompression
        compressionLevel := level
        totalChunks := totalChunksFor buf.length })
    :: ((List.range (totalChunksFor buf.length)).flatMap fun i =>
          [Frame.control (ControlMessage.chunk
              (chunkHeaderAt buf useCompression level compress i)),
           Frame.binary (chunkToSend buf useCompression level compress i)])
    ++ [Frame.control ControlMessage.complete]

/-- The first metadata control message in a frame list. -/
def metadataOf : List Frame → Option Metadata
  | [] => none
  | Frame.control (ControlMessage.metadata m) :: _ => some m
  | _ :: fs => metadataOf fs

/-- The chunk headers of a frame list, in order. -/
def chunkHeaders : List Frame → List ChunkHeader
  | [] => []
  | Frame.control (ControlMessage.chunk h) :: fs => h :: chunkHeaders fs
  | _ :: fs => chunkHeaders fs

/-- The binary payloads of a frame list, in order. -/
def binaryPayloads : List Frame → List Bytes
  | [] => []
  | Frame.binary b :: fs => b :: binaryPayloads fs
  | _ :: fs => binaryPayloads fs

/-- The receiver's `incomingFile` object (src/main.js lines 418-425):
a copy of the metadata plus the pending chunk header (`currentChunk`). -/
structure IncomingFile where
  name : String
  size : Nat
  mimeType : String
  compressed : Bool
  totalChunks : Nat
  currentChunk : Option ChunkHeader
deriving DecidableEq

/-- The receiver's mutable state: `incomingFile`, `receivedChunks`,
`receivedSize` (src/main.js lines 19-21) and the received-chunk counter of
the benchmark record (src/main.js line 32). -/
structure ReceiverState where
  incomingFile : Option IncomingFile
  receivedChunks : List Bytes
  receivedSize : Nat
  chunksReceived : Nat
deriving DecidableEq

/-- Observable receiver-side events: delivery of the assembled payload to
the download sink (src/main.js lines 489-504), and an uncaught JS
`TypeError` raised by a property access on `null`. -/
inductive RecvEvent where
  | delivered (name : String) (mimeType : String) (data : Bytes)
  | typeError
deriving DecidableEq

/-- The receiver's initial state (src/main.js lines 19-21). -/
def initialReceiverState : ReceiverState :=
  { incomingFile := none, receivedChunks := [], receivedSize := 0,
    chunksReceived := 0 }

/-- `handleFileMetadata` (src/main.js lines 413-443): unconditionally
installs a fresh `incomingFile` from the metadata, clears `receivedChunks`
and `receivedSize`, and resets the benchmark counters. -/
def handleFileMetadata (m : Metadata) : ReceiverState :=
  { incomingFile := some
      { name := m.name, size := m.size, mimeType := m.mimeType,
        compressed := m.compressed, totalChunks := m.totalChunks,
        currentChunk := none }
    receivedChunks := []
    receivedSize := 0
    chunksReceived := 0 }

/-- `handleChunkData` (src/main.js lines 445-474): returns unchanged when
there is no incoming file or no pending header; otherwise decompresses when
`incomingFile.compressed`, appends the chunk, updates the counters and
clears the pending header. -/
def handleChunkData (decompress : Bytes → Bytes) (data : Bytes)
    (s : ReceiverState) : ReceiverState :=
  match s.incomingFile with
  | none => s
  | some f =>
    match f.currentChunk with
    | none => s
    | some _ =>
      let chunkData := if f.compressed then decompress data else data
      { s with
        incomingFile := some { f with currentChunk := none }
        receivedChunks := s.receivedChunks ++ [chunkData]
        receivedSize := s.receivedSize + chunkData.length
        chunksReceived := s.chunksReceived + 1 }

/-- The chunk-combination loop of `handleTransferComplete`
(src/main.js lines 479-487): copies each accumulated chunk, in arrival
order, at the running offset of one contiguous buffer. -/
def combineChunks (chunks : List Bytes) : Bytes :=
  chunks.foldl (fun acc c => acc ++ c) []

/-- `handleTransferComplete` (src/main.js lines 476-512): concatenates the
accumulated chunks, delivers the blob under the incoming file's name and
mime type, and resets `incomingFile` / `receivedChunks` / `receivedSize`.
When `incomingFile` is `null`, the blob construction at line 490 reads
`incomingFile.mimeType` and raises a `TypeError`, leaving the state
unchanged (the resets at lines 509-511 are never reached). -/
def handleTransferComplete (s : ReceiverState) : ReceiverState × List RecvEvent :=
  match s.incomingFile with
  | none => (s, [RecvEvent.typeError])
  | some f =>
    ({ incomingFile := none, receivedChunks := [], receivedSize := 0,
       chunksReceived := s.chunksReceived },
     [RecvEvent.delivered f.name f.mimeType (combineChunks s.receivedChunks)])

/-- `handleDataChannelMessage` (src/main.js lines 392-411): dispatches a
frame to the metadata / chunk-header / completion / binary handlers.  For a
chunk header, line 401 writes `incomingFile.currentChunk`; when
`incomingFile` is `null` this raises a `TypeError` and changes nothing. -/
def handleDataChannelMessage (decompress : Bytes → Bytes) (s : ReceiverState) :
    Frame → ReceiverState × List RecvEvent
  | Frame.control (ControlMessage.metadata m) => (handleFileMetadata m, [])
  | Frame.control (ControlMessage.chunk h) =>
    match s.incomingFile with
    | none => (s, [RecvEvent.typeError])
    | some f => ({ s with incomingFile := some { f with currentChunk := some h } }, [])
  | Frame.control ControlMessage.complete => handleTransferComplete s
  | Frame.binary data => (handleChunkData decompress data s, [])

/-- Runs the receiver on a list of frames in arrival order, one
`handleDataChannelMessage` invocation per frame (an uncaught exception in
one handler invocation does not stop delivery of later frames), collecting
the emitted events. -/
def processFrames (decompress : Bytes → Bytes) (s : ReceiverState) :
    List Frame → ReceiverState × List RecvEvent
  | [] => (s, [])
  | f :: fs =>
    let r := handleDataChannelMessage decompress s f
    let rest := processFrames decompress r.1 fs
    (rest.1, r.2 ++ rest.2)

/-- `waitForBufferDrain` (src/main.js lines 268-285): resolves immediately
when the buffered amount is already at or below the threshold; otherwise it
suspends and resolves with the buffered amount observed when the
`bufferedamountlow` event fires (`obs`). -/
def waitForBufferDrain (buffered threshold obs : Nat) : Nat :=
  if buffered ≤ threshold then buffered else obs

/-- The backpressure behaviour of the chunk loop of `sendFile`
(src/main.js lines 337-383), abstracted over the per-iteration wire byte
counts (header frame plus payload frame).  Each iteration adds its bytes to
the channel's `bufferedAmount`; after the sends, the loop re-checks
`bufferedAmount > BUFFER_THRESHOLD` (line 379) and, when it holds, awaits
`waitForBufferDrain`.  `waitObs k` is the buffered amount observed when the
k-th wait's `bufferedamountlow` event fires (the transport fires it once the
buffered amount has fallen to or below the threshold); transport drain
between sends is not modelled, which is the worst case for the bound.
Returns the trace of buffered amounts observed at the per-iteration checks,
the final buffered amount, and the number of drain waits. -/
def sendLoop (waitObs : Nat → Nat) :
    List Nat → Nat → Nat → List Nat × Nat × Nat
  | [], b, w => ([], b, w)
  | sz :: rest, b, w =>
    let b1 := b + sz
    if BUFFER_THRESHOLD < b1 then
      let r := sendLoop waitObs rest (waitForBufferDrain b1 BUFFER_THRESHOLD (waitObs w)) (w + 1)
      (b1 :: r.1, r.2)
    else
      let r := sendLoop waitObs rest b1 w
      (b1 :: r.1, r.2)

/-- Two frames that agree except possibly in the numeric fields of a chunk
header (a chunk header consists only of numeric fields, so any two chunk
headers are related). -/
def frameEquiv (f g : Frame) : Prop :=
  (∃ h1 h2, f = Frame.control (ControlMessage.chunk h1)
    ∧ g = Frame.control (ControlMessage.chunk h2)) ∨ f = g

/-- Two incoming-file records that agree except possibly in the value of a
pending chunk header (both pending or both absent). -/
def fileEquiv (a b : IncomingFile) : Prop :=
  a.name = b.name ∧ a.size = b.size ∧ a.mimeType = b.mimeType ∧
    a.compressed = b.compressed ∧ a.totalChunks = b.totalChunks ∧
    a.currentChunk.isSome = b.currentChunk.isSome

/-- Lifts `fileEquiv` to optional incoming files. -/
def optFileEquiv : Option IncomingFile → Option IncomingFile → Prop
  | none, none => True
  | some a, some b => fileEquiv a b
  | _, _ => False

/-- Two receiver states that agree except possibly in the numeric fields of
the stored pending chunk header. -/
def stateEquiv (s t : ReceiverState) : Prop :=
  optFileEquiv s.incomingFile t.incomingFile ∧
    s.receivedChunks = t.receivedChunks ∧
    s.receivedSize = t.receivedSize ∧
    s.chunksReceived = t.chunksReceived

/-! ## Helper lemmas -/

theorem chunkHeaders_nil : chunkHeaders [] = [] := rfl

theorem chunkHeaders_cons_metadata (m : Metadata) (fs : List Frame) :
    chunkHeaders (Frame.control (ControlMessage.metadata m) :: fs)
      = chunkHeaders fs := rfl

theorem chunkHeaders_cons_complete (fs : List Frame) :
    chunkHeaders (Frame.control ControlMessage.complete :: fs)
      = chunkHeaders fs := rfl

theorem binaryPayloads_cons_metadata (m : Metadata) (fs : List Frame) :
    binaryPayloads (Frame.control (ControlMessage.metadata m) :: fs)
      = binaryPayloads fs := rfl

theorem binaryPayloads_cons_complete (fs : List Frame) :
    binaryPayloads (Frame.control ControlMessage.complete :: fs)
      = binaryPayloads fs := rfl

theorem chunkHeaders_append (a b : List Frame) :
    chunkHeaders (a ++ b) = chunkHeaders a ++ chunkHeaders b := by
  induction a with
  | nil => rfl
  | cons f fs ih =>
    cases f with
    | control m => cases m <;> simp [chunkHeaders, ih]
    | binary d => simp [chunkHeaders, ih]

theorem binaryPayloads_append (a b : List Frame) :
    binaryPayloads (a ++ b) = binaryPayloads a ++ binaryPayloads b := by
  induction a with
  | nil => rfl
  | cons f fs ih =>
    cases f with
    | control m => cases m <;> simp [binaryPayloads, ih]
    | binary d => simp [binaryPayloads, ih]

theorem chunkHeaders_pairs (idxs : List Nat) (hdr : Nat → ChunkHeader)
    (pay : Nat → Bytes) :
    chunkHeaders (idxs.flatMap fun i =>
        [Frame.control (ControlMessage.chunk (hdr i)), Frame.binary (pay i)])
      = idxs.map hdr := by
  induction idxs with
  | nil => rfl
  | cons i rest ih =>
    rw [List.flatMap_cons, chunkHeaders_append, ih]
    rfl

theorem binaryPayloads_pairs (idxs : List Nat) (hdr : Nat → ChunkHeader)
    (pay : Nat → Bytes) :
    binaryPayloads (idxs.flatMap fun i =>
        [Frame.control (ControlMessage.chunk (hdr i)), Frame.binary (pay i)])
      = idxs.map pay := by
  induction idxs with
  | nil => rfl
  | cons i rest ih =>
    rw [List.flatMap_cons, binaryPayloads_append, ih]
    rfl

theorem chunkHeaders_sendFile (name mime : String) (buf : Bytes) (useComp : Bool)
    (level : Nat) (compress : Bytes → Nat → Bytes) :
    chunkHeaders (sendFile name mime buf useComp level compress)
      = (List.range (totalChunksFor buf.length)).map
          (chunkHeaderAt buf useComp level compress) := by
  unfold sendFile
  rw [List.cons_append, chunkHeaders_cons_metadata, chunkHeaders_append,
    chunkHeaders_pairs]
  simp [chunkHeaders]

theorem binaryPayloads_sendFile (name mime : String) (buf : Bytes) (useComp : Bool)
    (level : Nat) (compress : Bytes → Nat → Bytes) :
    binaryPayloads (sendFile name mime buf useComp level compress)
      = (List.range (totalChunksFor buf.length)).map
          (chunkToSend buf useComp level compress) := by
  unfold sendFile
  rw [List.cons_append, binaryPayloads_cons_metadata, binaryPayloads_append,
    binaryPayloads_pairs]
  simp [binaryPayloads]

theorem metadataOf_sendFile (name mime : String) (buf : Bytes) (useComp : Bool)
    (level : Nat) (compress : Bytes → Nat → Bytes) :
    metadataOf (sendFile name mime buf useComp level compress)
      = some { name := name, size := buf.length, mimeType := mime,
               compressed := useComp, compressionLevel := level,
               totalChunks := totalChunksFor buf.length } := by
  unfold sendFile
  rw [List.cons_append]
  rfl

theorem chunkAt_eq (buf : Bytes) (i : Nat) :
    chunkAt buf i = (buf.drop (i * CHUNK_SIZE)).take CHUNK_SIZE := by
  unfold chunkAt
  rcases le_total (i * CHUNK_SIZE) buf.length with h | h
  · have he : min (i * CHUNK_SIZE + CHUNK_SIZE) buf.length - i * CHUNK_SIZE
        = min CHUNK_SIZE (buf.length - i * CHUNK_SIZE) := by omega
    rw [he]
    have hlen : (buf.drop (i * CHUNK_SIZE)).length = buf.length - i * CHUNK_SIZE :=
      List.length_drop _ _
    rcases le_total CHUNK_SIZE (buf.length - i * CHUNK_SIZE) with h2 | h2
    · rw [min_eq_left h2]
    · rw [min_eq_right h2, ← hlen, List.take_length,
        List.take_of_length_le (by omega)]
  · have hd : buf.drop (i * CHUNK_SIZE) = [] := List.drop_eq_nil_of_le h
    have he : min (i * CHUNK_SIZE + CHUNK_SIZE) buf.length - i * CHUNK_SIZE = 0 := by
      omega
    rw [hd, he]
    simp

theorem length_chunkAt (buf : Bytes) (i : Nat) :
    (chunkAt buf i).length = min CHUNK_SIZE (buf.length - i * CHUNK_SIZE) := by
  rw [chunkAt_eq, List.length_take, List.length_drop]

theorem flatten_take_drop {α : Type} (C : Nat) :
    ∀ (n : Nat) (l : List α), l.length ≤ n * C →
      ((List.range n).map (fun i => (l.drop (i * C)).take C)).flatten = l := by
  intro n
  induction n with
  | zero =>
    intro l hl
    simp at hl
    simp [hl]
  | succ n ih =>
    intro l hl
    rw [List.range_succ_eq_map, List.map_cons, List.map_map, List.flatten_cons]
    have hmap : (List.range n).map ((fun i => (l.drop (i * C)).take C) ∘ Nat.succ)
        = (List.range n).map (fun i => ((l.drop C).drop (i * C)).take C) := by
      refine List.map_congr_left ?_
      intro a _
      simp only [Function.comp]
      rw [List.drop_drop]
      have hidx : C + a * C = Nat.succ a * C := by
        rw [Nat.succ_mul, Nat.add_comm]
      rw [hidx]
    have hrec : (l.drop C).length ≤ n * C := by
      have h3 : (n + 1) * C = n * C + C := Nat.succ_mul n C
      rw [h3] at hl
      rw [List.length_drop]
      omega
    rw [hmap, ih (l.drop C) hrec]
    simp only [Nat.zero_mul, List.drop_zero]
    exact List.take_append_drop C l

theorem length_le_totalChunksFor_mul (L : Nat) :
    L ≤ totalChunksFor L * CHUNK_SIZE := by
  show L ≤ (L + 64 * 1024 - 1) / (64 * 1024) * (64 * 1024)
  omega

theorem flatten_chunkAt (buf : Bytes) :
    ((List.range (totalChunksFor buf.length)).map (chunkAt buf)).flatten = buf := by
  have h : (List.range (totalChunksFor buf.length)).map (chunkAt buf)
      = (List.range (totalChunksFor buf.length)).map
          (fun i => (buf.drop (i * CHUNK_SIZE)).take CHUNK_SIZE) :=
    List.map_congr_left fun a _ => chunkAt_eq buf a
  rw [h, flatten_take_drop CHUNK_SIZE _ _ (length_le_totalChunksFor_mul _)]

theorem combineChunks_eq_flatten (l : List Bytes) : combineChunks l = l.flatten := by
  have h : ∀ (ls : List Bytes) (acc : Bytes),
      ls.foldl (fun acc c => acc ++ c) acc = acc ++ ls.flatten := by
    intro ls
    induction ls with
    | nil => intro acc; simp
    | cons c rest ih => intro acc; simp [ih, List.append_assoc]
  simpa using h l []

theorem processFrames_append (d : Bytes → Bytes) (as bs : List Frame) :
    ∀ s : ReceiverState,
      processFrames d s (as ++ bs)
        = ((processFrames d (processFrames d s as).1 bs).1,
           (processFrames d s as).2 ++ (processFrames d (processFrames d s as).1 bs).2) := by
  induction as with
  | nil => intro s; simp [processFrames]
  | cons f fs ih =>
    intro s
    simp only [List.cons_append, processFrames, List.append_eq, ih,
      List.append_assoc]

theorem currentChunk_none_eta (f : IncomingFile) (h : f.currentChunk = none) :
    { f with currentChunk := none } = f := by
  cases f
  simp_all

theorem processFrames_pairs (d : Bytes → Bytes) (hdr : Nat → ChunkHeader)
    (pay : Nat → Bytes) :
    ∀ (idxs : List Nat) (s : ReceiverState) (f : IncomingFile),
      s.incomingFile = some f → f.currentChunk = none →
      processFrames d s (idxs.flatMap fun i =>
          [Frame.control (ControlMessage.chunk (hdr i)), Frame.binary (pay i)])
        = ({ incomingFile := some f
             receivedChunks := s.receivedChunks
               ++ idxs.map (fun i => if f.compressed then d (pay i) else pay i)
             receivedSize := s.receivedSize
               + (idxs.map (fun i => (if f.compressed then d (pay i) else pay i).length)).sum
             chunksReceived := s.chunksReceived + idxs.length }, []) := by
  intro idxs
  induction idxs with
  | nil =>
    intro s f hs hc
    simp only [List.flatMap_nil, processFrames, List.map_nil, List.append_nil,
      List.sum_nil, Nat.add_zero, List.length_nil]
    cases s
    simp_all
  | cons i rest ih =>
    intro s f hs hc
    rw [List.flatMap_cons]
    show processFrames d s
        (Frame.control (ControlMessage.chunk (hdr i)) :: Frame.binary (pay i) ::
          rest.flatMap fun j =>
            [Frame.control (ControlMessage.chunk (hdr j)), Frame.binary (pay j)]) = _
    simp only [processFrames, handleDataChannelMessage, hs, handleChunkData]
    rw [currentChunk_none_eta f hc]
    rw [ih _ f rfl hc]
    refine Prod.ext ?_ rfl
    simp only [ReceiverState.mk.injEq, List.nil_append, List.map_cons,
      List.sum_cons, List.length_cons, List.append_assoc, List.singleton_append]
    exact ⟨trivial, trivial, by omega, by omega⟩

/-! ## Claim theorems -/

/-- C7: for a zero-byte payload, `sendFile` emits exactly a metadata frame
with `totalChunks = 0` and the completion frame (zero chunk-header/binary
pairs), and the receiver, fed that sequence, finalizes and delivers a
payload of length 0. -/
theorem C7_zero_length_payload (name mime : String) (useComp : Bool) (level : Nat)
    (compress : Bytes → Nat → Bytes) (decompress : Bytes → Bytes) :
    sendFile name mime [] useComp level compress
      = [Frame.control (ControlMessage.metadata
            { name := name, size := 0, mimeType := mime, compressed := useComp,
              compressionLevel := level, totalChunks := 0 }),
         Frame.control ControlMessage.complete]
    ∧ (processFrames decompress initialReceiverState
          (sendFile name mime [] useComp level compress)).2
        = [RecvEvent.delivered name mime []] := by
  exact ⟨rfl, rfl⟩

/-- C3: the index fields of the chunk headers emitted by `sendFile` are
exactly `0 .. totalChunks - 1`, in that order (strictly increasing by 1
from 0 with no gaps); the receiver, which consumes frames in arrival order
over the ordered lossless channel, therefore observes exactly this
sequence. -/
theorem C3_chunk_indices (name mime : String) (buf : Bytes) (useComp : Bool)
    (level : Nat) (compress : Bytes → Nat → Bytes) :
    (chunkHeaders (sendFile name mime buf useComp level compress)).map
        ChunkHeader.index
      = List.range (totalChunksFor buf.length) := by
  rw [chunkHeaders_sendFile, List.map_map]
  refine Eq.trans (List.map_congr_left ?_) (List.map_id _)
  intro a _
  rfl

/-- C8: with compression off, every chunk header emitted by `sendFile` has
`compressedSize` equal to `originalSize`, and the binary frames sent are
exactly the unmodified chunk slices of the payload. -/
theorem C8_uncompressed_wire_size (name mime : String) (buf : Bytes) (level : Nat)
    (compress : Bytes → Nat → Bytes) :
    (chunkHeaders (sendFile name mime buf false level compress)).map
        ChunkHeader.compressedSize
      = (chunkHeaders (sendFile name mime buf false level compress)).map
          ChunkHeader.originalSize
    ∧ binaryPayloads (sendFile name mime buf false level compress)
        = (List.range (totalChunksFor buf.length)).map (chunkAt buf) := by
  constructor
  · rw [chunkHeaders_sendFile, List.map_map, List.map_map]
    refine List.map_congr_left ?_
    intro a _
    simp [Function.comp, chunkHeaderAt, chunkToSend]
  · rw [binaryPayloads_sendFile]
    refine List.map_congr_left ?_
    intro a _
    simp [chunkToSend]

/-- C2: for a payload of length L sent with compression off, the metadata
frame carries `totalChunks = ceil(L / CHUNK_SIZE)`, exactly that many binary
chunk frames are emitted, their contents are the slices
`[0,C), [C,2C), ...`, the i-th slice has length `min C (L - i*C)`, the last
chunk (when L > 0) has length `L mod C` (or `C` when `L mod C = 0`), the
assembled size equals L, and for L = 200000 the four chunks have sizes
65536, 65536, 65536, 3392 with `totalChunks = 4`. -/
theorem C2_chunk_count (name mime : String) (level : Nat)
    (compress : Bytes → Nat → Bytes) (buf : Bytes) :
    (metadataOf (sendFile name mime buf false level compress)).map
        Metadata.totalChunks = some (totalChunksFor buf.length)
    ∧ binaryPayloads (sendFile name mime buf false level compress)
        = (List.range (totalChunksFor buf.length)).map (chunkAt buf)
    ∧ (binaryPayloads (sendFile name mime buf false level compress)).length
        = totalChunksFor buf.length
    ∧ (binaryPayloads (sendFile name mime buf false level compress)).map
          List.length
        = (List.range (totalChunksFor buf.length)).map
            (fun i => min CHUNK_SIZE (buf.length - i * CHUNK_SIZE))
    ∧ (0 < buf.length →
        ((binaryPayloads (sendFile name mime buf false level compress)).map
            List.length).getLast?
          = some (if buf.length % CHUNK_SIZE = 0 then CHUNK_SIZE
                  else buf.length % CHUNK_SIZE))
    ∧ ((binaryPayloads (sendFile name mime buf false level compress)).flatten).length
        = buf.length
    ∧ (buf.length = 200000 →
        (binaryPayloads (sendFile name mime buf false level compress)).map
            List.length = [65536, 65536, 65536, 3392]
        ∧ totalChunksFor buf.length = 4) := by
  have hbp : binaryPayloads (sendFile name mime buf false level compress)
      = (List.range (totalChunksFor buf.length)).map (chunkAt buf) :=
    (C8_uncompressed_wire_size name mime buf level compress).2
  have hlen : (binaryPayloads (sendFile name mime buf false level compress)).map
      List.length
      = (List.range (totalChunksFor buf.length)).map
          (fun i => min CHUNK_SIZE (buf.length - i * CHUNK_SIZE)) := by
    rw [hbp, List.map_map]
    exact List.map_congr_left fun a _ => length_chunkAt buf a
  refine ⟨?_, hbp, ?_, hlen, ?_, ?_, ?_⟩
  · rw [metadataOf_sendFile]
    rfl
  · rw [hbp, List.length_map, List.length_range]
  · intro hpos
    have hq : totalChunksFor buf.length
        = (totalChunksFor buf.length - 1) + 1 := by
      show (buf.length + 64 * 1024 - 1) / (64 * 1024)
          = ((buf.length + 64 * 1024 - 1) / (64 * 1024) - 1) + 1
      omega
    rw [hlen, hq, List.range_succ, List.map_append, List.map_cons, List.map_nil,
      List.getLast?_concat]
    refine congrArg some ?_
    show min (64 * 1024)
        (buf.length - ((buf.length + 64 * 1024 - 1) / (64 * 1024) - 1) * (64 * 1024))
      = if buf.length % (64 * 1024) = 0 then 64 * 1024 else buf.length % (64 * 1024)
    split <;> omega
  · rw [hbp, flatten_chunkAt]
  · intro h200
    have hq : totalChunksFor buf.length = 4 := by
      show (buf.length + 64 * 1024 - 1) / (64 * 1024) = 4
      omega
    refine ⟨?_, hq⟩
    rw [hlen, hq, h200]
    decide

/-- C2 witness: the claim instantiated at a concrete 200000-byte payload,
with every hypothesis discharged. -/
theorem C2_chunk_count_witness :
    0 < (List.replicate 200000 (0 : Nat)).length
    ∧ (List.replicate 200000 (0 : Nat)).length = 200000
    ∧ ((binaryPayloads (sendFile "f" "m" (List.replicate 200000 (0 : Nat)) false 3
          (fun b _ => b))).map List.length = [65536, 65536, 65536, 3392]
        ∧ totalChunksFor (List.replicate 200000 (0 : Nat)).length = 4)
    ∧ ((binaryPayloads (sendFile "f" "m" (List.replicate 200000 (0 : Nat)) false 3
          (fun b _ => b))).map List.length).getLast? = some 3392 := by
  have h := C2_chunk_count "f" "m" 3 (fun b _ => b) (List.replicate 200000 (0 : Nat))
  have hL : (List.replicate 200000 (0 : Nat)).length = 200000 :=
    List.length_replicate _ _
  have hsc := h.2.2.2.2.2.2 hL
  refine ⟨by rw [hL]; omega, hL, hsc, ?_⟩
  rw [hsc.1]
  rfl

/-- C1: round-trip.  For every payload (including the empty one and ones
smaller than a chunk), feeding the frames emitted by `sendFile` to the
receiver in order yields exactly one delivery, whose bytes equal the
original payload, whether compression is applied to every chunk or not,
assuming `decompress` inverts `compress` at the chosen level. -/
theorem C1_roundtrip (name mime : String) (buf : Bytes) (useComp : Bool)
    (level : Nat) (compress : Bytes → Nat → Bytes) (decompress : Bytes → Bytes)
    (hinv : ∀ b, decompress (compress b level) = b) :
    (processFrames decompress initialReceiverState
        (sendFile name mime buf useComp level compress)).2
      = [RecvEvent.delivered name mime buf] := by
  unfold sendFile
  rw [List.cons_append]
  set f0 : IncomingFile :=
    { name := name, size := buf.length, mimeType := mime,
      compressed := useComp, totalChunks := totalChunksFor buf.length,
      currentChunk := none } with hf0
  have hstep1 : processFrames decompress initialReceiverState
      (Frame.control (ControlMessage.metadata
          { name := name, size := buf.length, mimeType := mime,
            compressed := useComp, compressionLevel := level,
            totalChunks := totalChunksFor buf.length })
        :: (((List.range (totalChunksFor buf.length)).flatMap fun i =>
              [Frame.control (ControlMessage.chunk
                  (chunkHeaderAt buf useComp level compress i)),
               Frame.binary (chunkToSend buf useComp level compress i)])
            ++ [Frame.control ControlMessage.complete]))
      = (processFrames decompress
          { incomingFile := some f0, receivedChunks := [], receivedSize := 0,
            chunksReceived := 0 }
          (((List.range (totalChunksFor buf.length)).flatMap fun i =>
              [Frame.control (ControlMessage.chunk
                  (chunkHeaderAt buf useComp level compress i)),
               Frame.binary (chunkToSend buf useComp level compress i)])
            ++ [Frame.control ControlMessage.complete])) := by
    simp only [processFrames, handleDataChannelMessage, handleFileMetadata, hf0]
    exact Prod.ext rfl (List.nil_append _)
  rw [hstep1, processFrames_append]
  rw [processFrames_pairs decompress _ _ _ _ f0 rfl rfl]
  have hpay : (List.range (totalChunksFor buf.length)).map
      (fun i => if f0.compressed then
          decompress (chunkToSend buf useComp level compress i)
        else chunkToSend buf useComp level compress i)
      = (List.range (totalChunksFor buf.length)).map (chunkAt buf) := by
    refine List.map_congr_left ?_
    intro a _
    show (if useComp then
        decompress (chunkToSend buf useComp level compress a)
      else chunkToSend buf useComp level compress a) = chunkAt buf a
    cases useComp with
    | false => simp [chunkToSend]
    | true => simp [chunkToSend, hinv]
  simp only [hpay]
  simp only [processFrames, handleDataChannelMessage, handleTransferComplete]
  simp only [List.nil_append, List.append_nil]
  rw [combineChunks_eq_flatten, flatten_chunkAt]

/-- C1 witness: the round-trip theorem applied at a concrete three-byte
payload with compression on and an identity codec, the inverse hypothesis
discharged definitionally. -/
theorem C1_roundtrip_witness :
    (processFrames (fun b => b) initialReceiverState
        (sendFile "file.bin" "app" [1, 2, 3] true 3 (fun b _ => b))).2
      = [RecvEvent.delivered "file.bin" "app" [1, 2, 3]] :=
  C1_roundtrip "file.bin" "app" [1, 2, 3] true 3 (fun b _ => b) (fun b => b)
    (fun _ => rfl)

/-- C4 counterexample: after a transfer has accumulated a chunk, a second
metadata frame resets the receiver — the first transfer's accumulated
chunks are discarded (the second frame's arrival changes the first
transfer's state), refuting the claim that the first transfer's state is
unaffected. -/
theorem C4_counterexample :
    ((processFrames (fun b => b) initialReceiverState
        [Frame.control (ControlMessage.metadata
            { name := "a", size := 1, mimeType := "t", compressed := false,
              compressionLevel := 3, totalChunks := 1 }),
         Frame.control (ControlMessage.chunk
            { index := 0, originalSize := 1, compressedSize := 1 }),
         Frame.binary [7]]).1).receivedChunks = [[7]]
    ∧ ((processFrames (fun b => b) initialReceiverState
        [Frame.control (ControlMessage.metadata
            { name := "a", size := 1, mimeType := "t", compressed := false,
              compressionLevel := 3, totalChunks := 1 }),
         Frame.control (ControlMessage.chunk
            { index := 0, originalSize := 1, compressedSize := 1 }),
         Frame.binary [7],
         Frame.control (ControlMessage.metadata
            { name := "b", size := 9, mimeType := "u", compressed := false,
              compressionLevel := 3, totalChunks := 9 })]).1).receivedChunks = []
    ∧ ([[7]] : List Bytes) ≠ [] := by
  exact ⟨rfl, rfl, by decide⟩

/-- C4 amended: a second metadata frame arriving while a transfer is active
aborts the prior transfer silently: the receiver is reinitialized from the
new frame's contents (prior metadata, accumulated chunks and counters are
discarded), no ProtocolViolation or any other event is signalled, and the
two transfers' states are not merged. -/
theorem C4_second_metadata_resets (d : Bytes → Bytes) (s : ReceiverState)
    (f : IncomingFile) (m : Metadata) (h : s.incomingFile = some f) :
    handleDataChannelMessage d s (Frame.control (ControlMessage.metadata m))
      = ({ incomingFile := some
             { name := m.name, size := m.size, mimeType := m.mimeType,
               compressed := m.compressed, totalChunks := m.totalChunks,
               currentChunk := none },
           receivedChunks := [], receivedSize := 0, chunksReceived := 0 }, []) :=
  rfl

/-- C4 witness: the amended theorem at a concrete active-transfer state. -/
theorem C4_second_metadata_resets_witness :
    ({ incomingFile := some
         { name := "a", size := 1, mimeType := "t", compressed := false,
           totalChunks := 1, currentChunk := none },
       receivedChunks := [[7]], receivedSize := 1,
       chunksReceived := 1 } : ReceiverState).incomingFile
      = some { name := "a", size := 1, mimeType := "t", compressed := false,
               totalChunks := 1, currentChunk := none }
    ∧ handleDataChannelMessage (fun b => b)
        { incomingFile := some
            { name := "a", size := 1, mimeType := "t", compressed := false,
              totalChunks := 1, currentChunk := none },
          receivedChunks := [[7]], receivedSize := 1, chunksReceived := 1 }
        (Frame.control (ControlMessage.metadata
            { name := "b", size := 9, mimeType := "u", compressed := false,
              compressionLevel := 3, totalChunks := 9 }))
      = ({ incomingFile := some
             { name := "b", size := 9, mimeType := "u", compressed := false,
               totalChunks := 9, currentChunk := none },
           receivedChunks := [], receivedSize := 0, chunksReceived := 0 }, []) :=
  ⟨rfl,
   C4_second_metadata_resets (fun b => b)
     { incomingFile := some
         { name := "a", size := 1, mimeType := "t", compressed := false,
           totalChunks := 1, currentChunk := none },
       receivedChunks := [[7]], receivedSize := 1, chunksReceived := 1 }
     { name := "a", size := 1, mimeType := "t", compressed := false,
       totalChunks := 1, currentChunk := none }
     { name := "b", size := 9, mimeType := "u", compressed := false,
       compressionLevel := 3, totalChunks := 9 }
     rfl⟩

/-- C5 counterexample: a run whose declared size (5) differs from the
assembled length (3) produces exactly one event — the delivery of the
3-byte assembled payload — and no error report of any kind, refuting the
claim that a SizeMismatch error is reported on a size discrepancy. -/
theorem C5_counterexample :
    (processFrames (fun b => b) initialReceiverState
        [Frame.control (ControlMessage.metadata
            { name := "f", size := 5, mimeType := "t", compressed := false,
              compressionLevel := 3, totalChunks := 1 }),
         Frame.control (ControlMessage.chunk
            { index := 0, originalSize := 3, compressedSize := 3 }),
         Frame.binary [1, 2, 3],
         Frame.control ControlMessage.complete]).2
      = [RecvEvent.delivered "f" "t" [1, 2, 3]]
    ∧ ([1, 2, 3] : Bytes).length ≠ 5 := by
  exact ⟨rfl, by decide⟩

/-- C5 amended: on a completion frame with a transfer active, the receiver
concatenates the accumulated chunks in arrival order into one contiguous
buffer and always finalizes, delivering the assembled payload under the
transfer's name and mime type and resetting the transfer state; the
assembled length is never compared with the declared `metadata.size` and no
SizeMismatch error is reported even when they differ. -/
theorem C5_complete_always_delivers (s : ReceiverState) (f : IncomingFile)
    (h : s.incomingFile = some f) :
    handleTransferComplete s
      = ({ incomingFile := none, receivedChunks := [], receivedSize := 0,
           chunksReceived := s.chunksReceived },
         [RecvEvent.delivered f.name f.mimeType (combineChunks s.receivedChunks)])
    ∧ combineChunks s.receivedChunks = s.receivedChunks.flatten := by
  refine ⟨?_, combineChunks_eq_flatten _⟩
  unfold handleTransferComplete
  rw [h]

/-- C5 witness: the amended theorem at a concrete state whose assembled
length (3) differs from the declared size (5). -/
theorem C5_complete_always_delivers_witness :
    ({ incomingFile := some
         { name := "f", size := 5, mimeType := "t", compressed := false,
           totalChunks := 1, currentChunk := none },
       receivedChunks := [[1, 2], [3]], receivedSize := 3,
       chunksReceived := 2 } : ReceiverState).incomingFile
      = some { name := "f", size := 5, mimeType := "t", compressed := false,
               totalChunks := 1, currentChunk := none }
    ∧ (handleTransferComplete
         { incomingFile := some
             { name := "f", size := 5, mimeType := "t", compressed := false,
               totalChunks := 1, currentChunk := none },
           receivedChunks := [[1, 2], [3]], receivedSize := 3,
           chunksReceived := 2 }
        = ({ incomingFile := none, receivedChunks := [], receivedSize := 0,
             chunksReceived := 2 },
           [RecvEvent.delivered "f" "t" (combineChunks [[1, 2], [3]])])
       ∧ combineChunks [[1, 2], [3]] = ([[1, 2], [3]] : List Bytes).flatten) :=
  ⟨rfl,
   C5_complete_always_delivers
     { incomingFile := some
         { name := "f", size := 5, mimeType := "t", compressed := false,
           totalChunks := 1, currentChunk := none },
       receivedChunks := [[1, 2], [3]], receivedSize := 3, chunksReceived := 2 }
     { name := "f", size := 5, mimeType := "t", compressed := false,
       totalChunks := 1, currentChunk := none }
     rfl⟩

/-- C6 counterexample: a chunk-header frame arriving while no transfer is
active is not silently ignored — the write to `incomingFile.currentChunk`
on a null `incomingFile` raises an uncaught TypeError (the receiver state
itself is unchanged), refuting the claim that every out-of-state frame is
ignored without incident. -/
theorem C6_counterexample :
    handleDataChannelMessage (fun b => b) initialReceiverState
        (Frame.control (ControlMessage.chunk
            { index := 0, originalSize := 1, compressedSize := 1 }))
      = (initialReceiverState, [RecvEvent.typeError])
    ∧ ([RecvEvent.typeError] : List RecvEvent) ≠ ([] : List RecvEvent) := by
  exact ⟨rfl, by decide⟩

/-- C6 amended: a binary frame arriving while no chunk header is pending
(no active transfer, or an active transfer with no pending header) is
silently ignored and leaves the receiver state unchanged; a chunk-header
frame arriving while no transfer is active also leaves the state unchanged
but raises an uncaught TypeError instead of being silently ignored. -/
theorem C6_out_of_state_frames (d : Bytes → Bytes) (s : ReceiverState)
    (b : Bytes) (hdr : ChunkHeader)
    (hb : s.incomingFile = none
      ∨ ∃ f, s.incomingFile = some f ∧ f.currentChunk = none) :
    handleDataChannelMessage d s (Frame.binary b) = (s, [])
    ∧ (s.incomingFile = none →
        handleDataChannelMessage d s (Frame.control (ControlMessage.chunk hdr))
          = (s, [RecvEvent.typeError])) := by
  constructor
  · show (handleChunkData d b s, ([] : List RecvEvent)) = (s, [])
    rcases hb with h | ⟨f, hf, hc⟩
    · unfold handleChunkData
      rw [h]
    · simp only [handleChunkData, hf, hc]
  · intro h
    show (match s.incomingFile with
      | none => (s, [RecvEvent.typeError])
      | some f =>
        ({ s with incomingFile := some { f with currentChunk := some hdr } },
         ([] : List RecvEvent))) = (s, [RecvEvent.typeError])
    rw [h]

/-- C6 witness: the amended theorem at the idle receiver state. -/
theorem C6_out_of_state_frames_witness :
    (initialReceiverState.incomingFile = none
      ∨ ∃ f, initialReceiverState.incomingFile = some f ∧ f.currentChunk = none)
    ∧ handleDataChannelMessage (fun b => b) initialReceiverState
        (Frame.binary [9]) = (initialReceiverState, [])
    ∧ (initialReceiverState.incomingFile = none →
        handleDataChannelMessage (fun b => b) initialReceiverState
            (Frame.control (ControlMessage.chunk
                { index := 2, originalSize := 1, compressedSize := 1 }))
          = (initialReceiverState, [RecvEvent.typeError])) :=
  ⟨Or.inl rfl,
   (C6_out_of_state_frames (fun b => b) initialReceiverState [9]
      { index := 2, originalSize := 1, compressedSize := 1 } (Or.inl rfl)).1,
   (C6_out_of_state_frames (fun b => b) initialReceiverState [9]
      { index := 2, originalSize := 1, compressedSize := 1 } (Or.inl rfl)).2⟩

theorem sendLoop_spec (waitObs : Nat → Nat)
    (hobs : ∀ k, waitObs k ≤ BUFFER_THRESHOLD) :
    ∀ (sizes : List Nat) (b w : Nat), b ≤ BUFFER_THRESHOLD →
      (sendLoop waitObs sizes b w).1.length = sizes.length
      ∧ (∀ p ∈ (sendLoop waitObs sizes b w).1.zip sizes,
          p.1 ≤ BUFFER_THRESHOLD + p.2)
      ∧ (sendLoop waitObs sizes b w).2.2
          = w + (sendLoop waitObs sizes b w).1.countP
              (fun v => decide (BUFFER_THRESHOLD < v))
      ∧ w ≤ (sendLoop waitObs sizes b w).2.2
      ∧ ((sendLoop waitObs sizes b w).2.2 = w →
          (sendLoop waitObs sizes b w).2.1 = b + sizes.sum
          ∧ (sendLoop waitObs sizes b w).2.1 ≤ BUFFER_THRESHOLD) := by
  intro sizes
  induction sizes with
  | nil =>
    intro b w hb
    simp [sendLoop, hb]
  | cons sz rest ih =>
    intro b w hb
    by_cases hover : BUFFER_THRESHOLD < b + sz
    · have hloop : sendLoop waitObs (sz :: rest) b w
          = ((b + sz) :: (sendLoop waitObs rest (waitObs w) (w + 1)).1,
             (sendLoop waitObs rest (waitObs w) (w + 1)).2) := by
        show (if BUFFER_THRESHOLD < b + sz then _ else _) = _
        rw [if_pos hover]
        have hwfd : waitForBufferDrain (b + sz) BUFFER_THRESHOLD (waitObs w)
            = waitObs w := by
          unfold waitForBufferDrain
          rw [if_neg (by omega)]
        rw [hwfd]
      have ihx := ih (waitObs w) (w + 1) (hobs w)
      rw [hloop]
      refine ⟨?_, ?_, ?_, ?_, ?_⟩
      · simp [ihx.1]
      · intro p hp
        rw [List.zip_cons_cons] at hp
        rcases List.mem_cons.mp hp with h | h
        · rw [h]; omega
        · exact ihx.2.1 p h
      · rw [List.countP_cons]
        simp only [decide_eq_true_eq]
        rw [if_pos hover]
        change (sendLoop waitObs rest (waitObs w) (w + 1)).2.2 = _
        have := ihx.2.2.1
        omega
      · change w ≤ (sendLoop waitObs rest (waitObs w) (w + 1)).2.2
        have := ihx.2.2.2.1
        omega
      · intro hw
        exfalso
        have hw2 : (sendLoop waitObs rest (waitObs w) (w + 1)).2.2 = w := hw
        have := ihx.2.2.2.1
        omega
    · have hle : b + sz ≤ BUFFER_THRESHOLD := by omega
      have hloop : sendLoop waitObs (sz :: rest) b w
          = ((b + sz) :: (sendLoop waitObs rest (b + sz) w).1,
             (sendLoop waitObs rest (b + sz) w).2) := by
        show (if BUFFER_THRESHOLD < b + sz then _ else _) = _
        rw [if_neg hover]
      have ihx := ih (b + sz) w hle
      rw [hloop]
      refine ⟨?_, ?_, ?_, ?_, ?_⟩
      · simp [ihx.1]
      · intro p hp
        rw [List.zip_cons_cons] at hp
        rcases List.mem_cons.mp hp with h | h
        · rw [h]; omega
        · exact ihx.2.1 p h
      · rw [List.countP_cons]
        simp only [decide_eq_true_eq]
        rw [if_neg hover]
        have := ihx.2.2.1
        omega
      · exact ihx.2.2.2.1
      · intro hw
        have hfin := ihx.2.2.2.2 hw
        rw [List.sum_cons]
        refine ⟨?_, hfin.2⟩
        rw [hfin.1]
        omega

/-- C9: backpressure.  In the chunk loop, the buffered amount is re-checked
after every chunk send (the trace of checks has one entry per chunk); every
check with the buffered amount above the 1 MiB threshold suspends for a
drain wait, which completes only when the observed buffered amount is at or
below the threshold (the wait count equals the number of above-threshold
checks); the buffered amount observed at the i-th check never exceeds the
threshold by more than the i-th chunk's sent bytes; and if the cumulative
unsent bytes exceed the threshold at least one drain wait is triggered. -/
theorem C9_backpressure (waitObs : Nat → Nat) (sizes : List Nat) (b0 : Nat)
    (hb0 : b0 ≤ BUFFER_THRESHOLD)
    (hobs : ∀ k, waitObs k ≤ BUFFER_THRESHOLD) :
    (sendLoop waitObs sizes b0 0).1.length = sizes.length
    ∧ (∀ p ∈ (sendLoop waitObs sizes b0 0).1.zip sizes,
        p.1 ≤ BUFFER_THRESHOLD + p.2)
    ∧ (sendLoop waitObs sizes b0 0).2.2
        = (sendLoop waitObs sizes b0 0).1.countP
            (fun v => decide (BUFFER_THRESHOLD < v))
    ∧ (BUFFER_THRESHOLD < b0 + sizes.sum →
        1 ≤ (sendLoop waitObs sizes b0 0).2.2) := by
  have h := sendLoop_spec waitObs hobs sizes b0 0 hb0
  refine ⟨h.1, h.2.1, by have := h.2.2.1; omega, ?_⟩
  intro hsum
  by_contra hno
  have hzero : (sendLoop waitObs sizes b0 0).2.2 = 0 := by omega
  have hfin := h.2.2.2.2 hzero
  omega

/-- C9 witness: two 700000-byte iterations from an empty buffer exceed the
1 MiB threshold, so the theorem's conclusions hold with all hypotheses
discharged at this concrete input. -/
theorem C9_backpressure_witness :
    (sendLoop (fun _ => 0) [700000, 700000] 0 0).1.length = 2
    ∧ (∀ p ∈ (sendLoop (fun _ => 0) [700000, 700000] 0 0).1.zip
          [700000, 700000], p.1 ≤ BUFFER_THRESHOLD + p.2)
    ∧ (sendLoop (fun _ => 0) [700000, 700000] 0 0).2.2
        = (sendLoop (fun _ => 0) [700000, 700000] 0 0).1.countP
            (fun v => decide (BUFFER_THRESHOLD < v))
    ∧ (BUFFER_THRESHOLD < 0 + ([700000, 700000] : List Nat).sum →
        1 ≤ (sendLoop (fun _ => 0) [700000, 700000] 0 0).2.2) := by
  have h := C9_backpressure (fun _ => 0) [700000, 700000] 0
    (Nat.zero_le _) (fun _ => Nat.zero_le _)
  exact ⟨h.1, h.2.1, h.2.2.1, h.2.2.2⟩

theorem fileEquiv_refl (f : IncomingFile) : fileEquiv f f :=
  ⟨rfl, rfl, rfl, rfl, rfl, rfl⟩

theorem stateEquiv_refl (s : ReceiverState) : stateEquiv s s := by
  refine ⟨?_, rfl, rfl, rfl⟩
  cases s.incomingFile with
  | none => trivial
  | some f => exact fileEquiv_refl f

theorem step_equiv (d : Bytes → Bytes) (s t : ReceiverState) (f g : Frame)
    (hst : stateEquiv s t) (hfg : frameEquiv f g) :
    stateEquiv (handleDataChannelMessage d s f).1
        (handleDataChannelMessage d t g).1
    ∧ (handleDataChannelMessage d s f).2 = (handleDataChannelMessage d t g).2 := by
  obtain ⟨hopt, hchunks, hsize, hcount⟩ := hst
  have hchunkStep : ∀ (h1 h2 : ChunkHeader),
      stateEquiv (handleDataChannelMessage d s
          (Frame.control (ControlMessage.chunk h1))).1
        (handleDataChannelMessage d t
          (Frame.control (ControlMessage.chunk h2))).1
      ∧ (handleDataChannelMessage d s
          (Frame.control (ControlMessage.chunk h1))).2
        = (handleDataChannelMessage d t
            (Frame.control (ControlMessage.chunk h2))).2 := by
    intro h1 h2
    cases hs : s.incomingFile with
    | none =>
      cases ht : t.incomingFile with
      | none =>
        simp only [handleDataChannelMessage, hs, ht]
        exact ⟨⟨by rw [hs, ht]; trivial, hchunks, hsize, hcount⟩, trivial⟩
      | some fb => rw [hs, ht] at hopt; exact hopt.elim
    | some fa =>
      cases ht : t.incomingFile with
      | none => rw [hs, ht] at hopt; exact hopt.elim
      | some fb =>
        rw [hs, ht] at hopt
        simp only [handleDataChannelMessage, hs, ht]
        refine ⟨⟨?_, hchunks, hsize, hcount⟩, trivial⟩
        exact ⟨hopt.1, hopt.2.1, hopt.2.2.1, hopt.2.2.2.1, hopt.2.2.2.2.1, rfl⟩
  rcases hfg with ⟨h1, h2, rfl, rfl⟩ | rfl
  · exact hchunkStep h1 h2
  · cases f with
    | control m =>
      cases m with
      | metadata m0 =>
        exact ⟨stateEquiv_refl _, rfl⟩
      | chunk h1 => exact hchunkStep h1 h1
      | complete =>
        cases hs : s.incomingFile with
        | none =>
          cases ht : t.incomingFile with
          | none =>
            simp only [handleDataChannelMessage, handleTransferComplete, hs, ht]
            exact ⟨⟨by rw [hs, ht]; trivial, hchunks, hsize, hcount⟩, trivial⟩
          | some fb => rw [hs, ht] at hopt; exact hopt.elim
        | some fa =>
          cases ht : t.incomingFile with
          | none => rw [hs, ht] at hopt; exact hopt.elim
          | some fb =>
            rw [hs, ht] at hopt
            simp only [handleDataChannelMessage, handleTransferComplete, hs, ht]
            refine ⟨⟨trivial, rfl, rfl, hcount⟩, ?_⟩
            rw [hopt.1, hopt.2.2.1, hchunks]
    | binary b =>
      cases hs : s.incomingFile with
      | none =>
        cases ht : t.incomingFile with
        | none =>
          simp only [handleDataChannelMessage, handleChunkData, hs, ht]
          exact ⟨⟨by rw [hs, ht]; trivial, hchunks, hsize, hcount⟩, trivial⟩
        | some fb => rw [hs, ht] at hopt; exact hopt.elim
      | some fa =>
        cases ht : t.incomingFile with
        | none => rw [hs, ht] at hopt; exact hopt.elim
        | some fb =>
          rw [hs, ht] at hopt
          have hcc : fa.currentChunk.isSome = fb.currentChunk.isSome :=
            hopt.2.2.2.2.2
          cases hca : fa.currentChunk with
          | none =>
            cases hcb : fb.currentChunk with
            | none =>
              simp only [handleDataChannelMessage, handleChunkData, hs, ht,
                hca, hcb]
              exact ⟨⟨by rw [hs, ht]; exact hopt, hchunks, hsize, hcount⟩, trivial⟩
            | some cb => rw [hca, hcb] at hcc; simp at hcc
          | some ca =>
            cases hcb : fb.currentChunk with
            | none => rw [hca, hcb] at hcc; simp at hcc
            | some cb =>
              simp only [handleDataChannelMessage, handleChunkData, hs, ht,
                hca, hcb]
              have hcomp : fa.compressed = fb.compressed := hopt.2.2.2.1
              refine ⟨⟨?_, ?_, ?_, ?_⟩, trivial⟩
              · exact ⟨hopt.1, hopt.2.1, hopt.2.2.1, hopt.2.2.2.1,
                  hopt.2.2.2.2.1, rfl⟩
              · rw [hchunks, hcomp]
              · rw [hsize, hcomp]
              · rw [hcount]

theorem processFrames_equiv (d : Bytes → Bytes) :
    ∀ {fs gs : List Frame}, List.Forall₂ frameEquiv fs gs →
      ∀ (s t : ReceiverState), stateEquiv s t →
        stateEquiv (processFrames d s fs).1 (processFrames d t gs).1
        ∧ (processFrames d s fs).2 = (processFrames d t gs).2 := by
  intro fs gs hfg
  induction hfg with
  | nil => intro s t hst; exact ⟨hst, rfl⟩
  | @cons f g fs2 gs2 hfg2 htl ih =>
    intro s t hst
    have hstep := step_equiv d s t f g hst hfg2
    have hrec := ih (handleDataChannelMessage d s f).1
      (handleDataChannelMessage d t g).1 hstep.1
    simp only [processFrames]
    exact ⟨hrec.1, by rw [hstep.2, hrec.2]⟩

/-- C10: the delivered payload (and every other receiver-observable event)
depends only on the metadata, the completion markers and the ordered binary
frames; the numeric fields of chunk-header frames (index, originalSize,
compressedSize) are never used in reassembly, so two runs whose frame
sequences differ only in those header field values produce identical event
sequences — in particular identical delivered bytes. -/
theorem C10_header_fields_noninterference (d : Bytes → Bytes)
    (fs gs : List Frame) (h : List.Forall₂ frameEquiv fs gs) :
    (processFrames d initialReceiverState fs).2
      = (processFrames d initialReceiverState gs).2 :=
  (processFrames_equiv d h initialReceiverState initialReceiverState
    (stateEquiv_refl _)).2

/-- C10 witness: two concrete runs that differ only in the numeric fields
of the chunk header (index 0/99, sizes 1/77) produce equal event lists. -/
theorem C10_header_fields_noninterference_witness :
    List.Forall₂ frameEquiv
      [Frame.control (ControlMessage.metadata
          { name := "f", size := 1, mimeType := "t", compressed := false,
            compressionLevel := 3, totalChunks := 1 }),
       Frame.control (ControlMessage.chunk
          { index := 0, originalSize := 1, compressedSize := 1 }),
       Frame.binary [5],
       Frame.control ControlMessage.complete]
      [Frame.control (ControlMessage.metadata
          { name := "f", size := 1, mimeType := "t", compressed := false,
            compressionLevel := 3, totalChunks := 1 }),
       Frame.control (ControlMessage.chunk
          { index := 99, originalSize := 77, compressedSize := 77 }),
       Frame.binary [5],
       Frame.control ControlMessage.complete]
    ∧ (processFrames (fun b => b) initialReceiverState
        [Frame.control (ControlMessage.metadata
            { name := "f", size := 1, mimeType := "t", compressed := false,
              compressionLevel := 3, totalChunks := 1 }),
         Frame.control (ControlMessage.chunk
            { index := 0, originalSize := 1, compressedSize := 1 }),
         Frame.binary [5],
         Frame.control ControlMessage.complete]).2
      = (processFrames (fun b => b) initialReceiverState
          [Frame.control (ControlMessage.metadata
              { name := "f", size := 1, mimeType := "t", compressed := false,
                compressionLevel := 3, totalChunks := 1 }),
           Frame.control (ControlMessage.chunk
              { index := 99, originalSize := 77, compressedSize := 77 }),
           Frame.binary [5],
           Frame.control ControlMessage.complete]).2 := by
  refine ⟨?_, ?_⟩
  · exact List.Forall₂.cons (Or.inr rfl)
      (List.Forall₂.cons (Or.inl ⟨_, _, rfl, rfl⟩)
        (List.Forall₂.cons (Or.inr rfl)
          (List.Forall₂.cons (Or.inr rfl) List.Forall₂.nil)))
  · exact C10_header_fields_noninterference (fun b => b) _ _
      (List.Forall₂.cons (Or.inr rfl)
        (List.Forall₂.cons (Or.inl ⟨_, _, rfl, rfl⟩)
          (List.Forall₂.cons (Or.inr rfl)
            (List.Forall₂.cons (Or.inr rfl) List.Forall₂.nil))))
